import Mathlib

/-!
# Verification of IVRE's Elasticsearch backend (`ivre/db/elastic.py`)

Shallow embedding of the pure parts of `ivre/db/elastic.py`: the JSON
document model, the Elasticsearch-DSL query values built by the
`search*` predicate builders, the mapping-tree builder
`_create_mappings`, the aggregation bodies built by `topvalues`, the
document transformations performed by `store_host` and `get`, and the
composite-aggregation pagination loop of `distinct`.

Python dictionaries are embedded as association lists (`List (String × α)`)
with first-match lookup and replace-in-place / append-if-absent update,
which matches Python dict insertion-order semantics.
-/

set_option autoImplicit false
set_option linter.unusedVariables false

namespace Elastic

/-- JSON-like values: the shape of host documents and of the values
passed to the predicate builders.  Numbers are embedded as integers
(the claims under study never depend on fractional values). -/
inductive JVal where
  | str (s : String)
  | num (n : Int)
  | arr (elems : List JVal)
  | obj (fields : List (String × JVal))

/-- First-match lookup in an association list (Python `dict.get`). -/
def objGet {α : Type} (m : List (String × α)) (k : String) : Option α :=
  match m with
  | [] => none
  | (k', v) :: rest => if k' = k then some v else objGet rest k

/-- Update in an association list: replace the first binding of `k`
in place, or append a new binding (Python `dict.__setitem__`). -/
def objSet {α : Type} (m : List (String × α)) (k : String) (v : α) :
    List (String × α) :=
  match m with
  | [] => [(k, v)]
  | (k', v') :: rest =>
      if k' = k then (k, v) :: rest else (k', v') :: objSet rest k v

/-- Elasticsearch-DSL query values (`elasticsearch_dsl.Q`), as built by
the `search*` predicate builders of `ElasticDB` / `ElasticDBActive`.
`empty` is `Q()` (match-all), `andQ`/`orQ` are the `&`/`|` combinators,
`notQ` is `~`. -/
inductive Query where
  | empty
  | matchId (v : JVal)
  | matchQ (field : String) (v : JVal)
  | terms (field : String) (vs : List JVal)
  | existsQ (field : String)
  | regexp (field : String) (pattern : String)
  | nested (path : String) (query : Query)
  | andQ (a b : Query)
  | orQ (a b : Query)
  | notQ (a : Query)

/-- The `&` combinator on DSL query values (`Query.__and__`); `Q()`
(match-all) is an identity for it, as in `elasticsearch_dsl`. -/
def hand : Query → Query → Query
  | Query.empty, b => b
  | a, Query.empty => a
  | a, b => Query.andQ a b

/-! ## Schema Builder: `_create_mappings` -/

/-- Split a character list on `'.'` (Python `str.split('.')`), carrying
the current segment; structurally recursive so that it evaluates inside
the kernel. -/
def splitDotAux : List Char → String → List String
  | [], cur => [cur]
  | c :: rest, cur =>
      if c = '.' then cur :: splitDotAux rest ""
      else splitDotAux rest (cur.push c)

/-- Python `fld.split('.')`. -/
def splitDot (s : String) : List String := splitDotAux s.data ""

/-- A node of the Elasticsearch mapping tree: a `type` entry plus an
optional `properties` sub-map (absent until `setdefault('properties', {})`
creates it). -/
inductive MNode where
  | mk (type : String) (properties : Option (List (String × MNode)))

/-- The `type` entry of a mapping node. -/
def MNode.typeOf : MNode → String
  | MNode.mk t _ => t

/-- The `properties` entry of a mapping node, if present. -/
def MNode.props : MNode → Option (List (String × MNode))
  | MNode.mk _ p => p

/-- The per-field walk of `_create_mappings`: iterate over the non-final
segments of the dotted field name, accumulating them into a compound key
(`curkey`) unless the key so far names an already-created node of type
`nested`, in which case descend into its `properties` sub-map (creating
it if absent) and reset the accumulated key; finally assign
`{type: fldtype}` at the resulting key. -/
def insertWalk (nodes : List (String × MNode)) (curkey : Option String)
    (segs : List String) (last : String) (fldtype : String) :
    List (String × MNode) :=
  match segs with
  | [] =>
      let key := match curkey with
        | none => last
        | some c => c ++ "." ++ last
      objSet nodes key (MNode.mk fldtype none)
  | s :: rest =>
      let key := match curkey with
        | none => s
        | some c => c ++ "." ++ s
      match objGet nodes key with
      | some nd =>
          if nd.typeOf = "nested" then
            let props := (nd.props).getD []
            objSet nodes key
              (MNode.mk "nested" (some (insertWalk props none rest last fldtype)))
          else insertWalk nodes (some key) rest last fldtype
      | none => insertWalk nodes (some key) rest last fldtype

/-- Insert one dotted field name with the given type into the mapping
tree (one iteration of the loops of `_create_mappings`). -/
def insertField (nodes : List (String × MNode)) (fld : String)
    (fldtype : String) : List (String × MNode) :=
  let segs := splitDot fld
  insertWalk nodes none segs.dropLast (segs.getLastD "") fldtype

/-- `_create_mappings(nested, all_mappings)`: first insert every path of
`nested` with type `nested`, then every `(fldtype, fldnames)` pair of
`all_mappings`. -/
def createMappings (nested : List String)
    (allMappings : List (String × List String)) : List (String × MNode) :=
  let res := nested.foldl (fun acc fld => insertField acc fld "nested") []
  allMappings.foldl
    (fun acc p => p.2.foldl (fun a f => insertField a f p.1) acc) res

/-- `ElasticDB.searchnonexistent`: `Q('match', _id=0)`. -/
def searchnonexistent : Query := Query.matchId (JVal.num 0)

/-- `ElasticDB.searchhost(addr, neg=False)`: the code returns
`Q('match', addr=addr)` unconditionally — the `neg` parameter is
accepted but never used. -/
def searchhost (addr : JVal) (neg : Bool) : Query :=
  Query.matchQ "addr" addr

/-- `ElasticDBActive.searchhaslocation(neg=False)`. -/
def searchhaslocation (neg : Bool) : Query :=
  let res := Query.existsQ "infos.coordinates"
  if neg then Query.notQ res else res

/-! ## Regular-expression arguments and the Pattern Translator -/

/-- A compiled regular expression (`utils.REGEXP_T`): pattern source and
flag bits. -/
structure RegexT where
  pattern : String
  flags : Nat

/-- First character test, structurally on the character list. -/
def strHeadIs (s : String) (c : Char) : Bool :=
  match s.data with
  | [] => false
  | c' :: _ => c' = c

/-- Last character test, structurally on the character list. -/
def strLastIs (s : String) (c : Char) : Bool :=
  match s.data.getLast? with
  | none => false
  | some c' => c' = c

/-- Drop the first character. -/
def strDropHead (s : String) : String := String.mk (s.data.drop 1)

/-- Drop the last character. -/
def strDropLast (s : String) : String := String.mk s.data.dropLast

/-- Modelled from the spec: `utils.regexp2pattern` (outside `src/`).
Converts a portable regex into an engine pattern with substring-search
semantics: conceptually wraps the pattern with `.*` on each side unless
that side is already anchored (`^` / `$`), and returns the flags. -/
def regexp2pattern (r : RegexT) : String × Nat :=
  let p := r.pattern
  let p := if strHeadIs p '^' then strDropHead p else ".*" ++ p
  let p := if strLastIs p '$' then strDropLast p else p ++ ".*"
  (p, r.flags)

/-- `ElasticDB._get_pattern`: translate the regex and return only the
pattern (unsupported flags are dropped with a logged warning, a side
effect outside the embedding). -/
def getPattern (r : RegexT) : String := (regexp2pattern r).1

/-- A builder argument that is either a plain string or a compiled
regular expression (`isinstance(x, utils.REGEXP_T)` dispatch). -/
inductive ReOrStr where
  | s (v : String)
  | re (r : RegexT)

/-! ## Predicate builders -/

/-- Modelled from the spec: `utils.country_unalias` (outside `src/`).
The spec specifies `searchcountry` as an exact match on the country
code(s) given by the caller, so the unaliasing step is the identity. -/
def country_unalias (c : JVal) : JVal := c

/-- `ElasticDBActive.searchcountry(country, neg=False)`: `terms` query
for a list argument, `match` query otherwise. -/
def searchcountry (country : JVal) (neg : Bool) : Query :=
  let country := country_unalias country
  let res := match country with
    | JVal.arr cs => Query.terms "infos.country_code" cs
    | c => Query.matchQ "infos.country_code" c
  if neg then Query.notQ res else res

/-- Continue parsing decimal digits after the first one, allowing a
single underscore separator between two digits (Python
`int()` literal grammar: `digit (('_')? digit)*`). -/
def parseDigitsUnd : List Char → Nat → Option Nat
  | [], acc => some acc
  | '_' :: c :: rest, acc =>
      if c.isDigit then parseDigitsUnd rest (acc * 10 + (c.toNat - '0'.toNat))
      else none
  | ['_'], _ => none
  | c :: rest, acc =>
      if c.isDigit then parseDigitsUnd rest (acc * 10 + (c.toNat - '0'.toNat))
      else none

/-- Parse an unsigned decimal literal: at least one digit, then digits
with optional single underscore separators (no leading or trailing
underscore). -/
def parseDecimal : List Char → Option Nat
  | [] => none
  | c :: rest =>
      if c.isDigit then parseDigitsUnd rest (c.toNat - '0'.toNat) else none

/-- Strip leading and trailing whitespace (Python `str.strip()` as
applied by `int()`). -/
def stripWs (cs : List Char) : List Char :=
  ((cs.dropWhile Char.isWhitespace).reverse.dropWhile Char.isWhitespace).reverse

/-- Python `int(·)` on an embedded value: integers pass through; a
string is stripped of surrounding whitespace and parsed as an optional
sign followed by decimal digits with optional single underscore
separators (`ValueError` otherwise); non-numeric non-string values are
a `TypeError`. -/
def pyInt : JVal → Except String Int
  | JVal.num n => Except.ok n
  | JVal.str s =>
      let parsed : Option Int :=
        match stripWs s.data with
        | '-' :: ds => (parseDecimal ds).map (fun n => -(n : Int))
        | '+' :: ds => (parseDecimal ds).map (fun n => (n : Int))
        | ds => (parseDecimal ds).map (fun n => (n : Int))
      match parsed with
      | some n => Except.ok n
      | none => Except.error "ValueError: invalid literal for int() with base 10"
  | _ => Except.error "TypeError: int() argument must be a string or a number"

/-- `ElasticDBActive.searchasnum(asnum, neg=False)`: a non-string
iterable — a list, or a dict, whose iteration yields its keys — becomes
a `terms` query over `int(val)` for each element; any other argument
becomes a `match` query on `int(asnum)`; the coercion error, if any, is
raised before a query is built. -/
def searchasnum (asnum : JVal) (neg : Bool) : Except String Query :=
  match asnum with
  | JVal.arr vs =>
      (vs.mapM pyInt).map (fun ns =>
        let res := Query.terms "infos.as_num" (ns.map JVal.num)
        if neg then Query.notQ res else res)
  | JVal.obj o =>
      ((o.map (fun p => JVal.str p.1)).mapM pyInt).map (fun ns =>
        let res := Query.terms "infos.as_num" (ns.map JVal.num)
        if neg then Query.notQ res else res)
  | v =>
      (pyInt v).map (fun n =>
        let res := Query.matchQ "infos.as_num" (JVal.num n)
        if neg then Query.notQ res else res)

/-- `ElasticDBActive.searchasname(asname, neg=False)`. -/
def searchasname (asname : ReOrStr) (neg : Bool) : Query :=
  let res := match asname with
    | ReOrStr.re r => Query.regexp "infos.as_name" (getPattern r)
    | ReOrStr.s v => Query.matchQ "infos.as_name" (JVal.str v)
  if neg then Query.notQ res else res

/-! ## `searchscript` -/

/-- An element of the `req` list built by `searchscript`: a
`("match", field, value)` tuple, a `("regexp", field, pattern)` tuple,
or a raw `Query` value. -/
inductive SubReq where
  | m (field : String) (value : JVal)
  | re (field : String) (pattern : String)
  | raw (q : Query)

/-- Turn one `req` element into a query, prefixing tuple field names
with `ports.scripts.` (`Q(subreq[0], **{"ports.scripts.<field>": v})`);
raw `Query` elements are used as they are. -/
def subreqQuery : SubReq → Query
  | SubReq.m f v => Query.matchQ ("ports.scripts." ++ f) v
  | SubReq.re f p => Query.regexp ("ports.scripts." ++ f) p
  | SubReq.raw q => q

/-- A value of a `values` mapping entry: a literal or a regex. -/
inductive VaLit where
  | lit (v : JVal)
  | re (r : RegexT)

/-- The `values` argument of `searchscript`: a raw sub-query, a literal
string, a regex, or a field-to-value mapping. -/
inductive ScriptValues where
  | query (q : Query)
  | str (v : String)
  | re (r : RegexT)
  | mapping (m : List (String × VaLit))

/-- The `req` entries contributed by the `name` and `output` arguments
of `searchscript`, in order. -/
def scriptNameOutputReq (name output : Option ReOrStr) : List SubReq :=
  (match name with
   | none => []
   | some (ReOrStr.s n) => [SubReq.m "id" (JVal.str n)]
   | some (ReOrStr.re r) => [SubReq.re "id" (getPattern r)]) ++
  (match output with
   | none => []
   | some (ReOrStr.s o) => [SubReq.m "output" (JVal.str o)]
   | some (ReOrStr.re r) => [SubReq.re "output" (getPattern r)])

/-- The default subfield derived from the script name:
`xmlnmap.ALIASES_TABLE_ELEMS.get(name, name)` (the table is a plain
string-keyed dict, passed here as `aliases`).  A compiled-regex name is
never a key of the table; Python would then use the regex object itself
when formatting the field name — we use its pattern source. -/
def scriptSubfield (aliases : List (String × String)) : ReOrStr → String
  | ReOrStr.s n => (objGet aliases n).getD n
  | ReOrStr.re r => r.pattern

/-- The `req` entries contributed by the `values` argument, given the
derived subfield. -/
def scriptValuesReq (subfield : String) : ScriptValues → List SubReq
  | ScriptValues.query q => [SubReq.raw q]
  | ScriptValues.str v => [SubReq.m subfield (JVal.str v)]
  | ScriptValues.re r => [SubReq.re subfield (getPattern r)]
  | ScriptValues.mapping m =>
      m.map (fun p => match p.2 with
        | VaLit.re r => SubReq.re (subfield ++ "." ++ p.1) (getPattern r)
        | VaLit.lit v => SubReq.m (subfield ++ "." ++ p.1) v)

/-- The final wrapping of `searchscript`: an empty `req` degrades to the
double-nested existence query; otherwise the elements are conjoined with
`&` starting from `Q()` and wrapped in the two nested levels `ports`
then `ports.scripts`; `neg` applies `~` to the result. -/
def scriptFinish (req : List SubReq) (neg : Bool) : Query :=
  let res := match req with
    | [] => Query.nested "ports"
        (Query.nested "ports.scripts" (Query.existsQ "ports.scripts"))
    | _ => Query.nested "ports"
        (Query.nested "ports.scripts"
          ((req.map subreqQuery).foldl hand Query.empty))
  if neg then Query.notQ res else res

/-- `ElasticDBActive.searchscript(name=None, output=None, values=None,
neg=False)`: build the `req` list from `name` and `output`; a `values`
argument without `name` raises `TypeError` before any query value is
produced; otherwise append the `values` entries and wrap. -/
def searchscript (aliases : List (String × String))
    (name output : Option ReOrStr) (values : Option ScriptValues)
    (neg : Bool) : Except String Query :=
  let req := scriptNameOutputReq name output
  match values with
  | none => Except.ok (scriptFinish req neg)
  | some v =>
      match name with
      | none => Except.error
          ".searchscript() needs a `name` arg when using a `values` arg"
      | some nm =>
          Except.ok
            (scriptFinish (req ++ scriptValuesReq (scriptSubfield aliases nm) v)
              neg)

/-- The full `req` list built by a successful `searchscript` call. -/
def scriptReq (aliases : List (String × String))
    (name output : Option ReOrStr) (values : Option ScriptValues) :
    List SubReq :=
  scriptNameOutputReq name output ++
    (match values, name with
     | some v, some nm => scriptValuesReq (scriptSubfield aliases nm) v
     | _, _ => [])

/-! ## `topvalues`: aggregation bodies -/

/-- Leading-characters test, structurally recursive. -/
def charsLead : List Char → List Char → Bool
  | [], _ => true
  | _ :: _, [] => false
  | p :: ps, c :: cs => if p = c then charsLead ps cs else false

/-- Python `s.startswith(p)`. -/
def strStarts (s p : String) : Bool := charsLead p.data s.data

/-- Python `s[n:]`. -/
def strDropN (s : String) (n : Nat) : String := String.mk (s.data.drop n)

/-- Python `s.lower()`. -/
def strLower (s : String) : String := String.mk (s.data.map Char.toLower)

/-- The Painless scripts used by `topvalues`, kept as named templates
with their parameters (their source text is opaque engine-side code). -/
inductive ScriptSrc where
  | asConcat
  | portAll
  | portMatch (field : String) (value : String)
  | httphdrAll
  | httphdrName (name : String)

/-- The `field` specification placed inside a `terms` aggregation:
either a plain `{"field": name}` or a `{"script": ...}`. -/
inductive FieldSpec where
  | fieldF (name : String)
  | script (src : ScriptSrc)

/-- An aggregation body: a `terms` aggregation (with its optional
`size` entry) or a `nested`-path wrapper around an inner aggregation. -/
inductive Aggs where
  | terms (spec : FieldSpec) (size : Option Nat)
  | nestedAgg (path : String) (inner : Aggs)

/-- The aggregation body built by `ElasticDBActive.topvalues` for a
given pseudo-field and `topnbr`, following the `elif` dispatch of the
source.  In every branch but `httphdr.<subfield>` the body is
`{"terms": dict(field, size=topnbr)}`; in the `httphdr.<subfield>`
branch it is the double `nested` wrapper whose inner `terms` is built
from `field` alone, with no `size` entry.  (The filter augmentation and
output post-processing of each branch do not contribute to the
aggregation body and are not modelled here.) -/
def topvaluesAggs (field : String) (topnbr : Nat) : Aggs :=
  if field = "asnum" then
    Aggs.terms (FieldSpec.fieldF "infos.as_num") (some topnbr)
  else if field = "as" then
    Aggs.terms (FieldSpec.script ScriptSrc.asConcat) (some topnbr)
  else if field = "port" then
    Aggs.terms (FieldSpec.script ScriptSrc.portAll) (some topnbr)
  else if strStarts field "port:" then
    let info := strDropN field 5
    let matchfield :=
      if info = "open" ∨ info = "filtered" ∨ info = "closed" then "state_state"
      else "service_name"
    Aggs.terms (FieldSpec.script (ScriptSrc.portMatch matchfield info))
      (some topnbr)
  else if field = "httphdr" then
    Aggs.terms (FieldSpec.script ScriptSrc.httphdrAll) (some topnbr)
  else if strStarts field "httphdr." then
    Aggs.nestedAgg "ports" (Aggs.nestedAgg "ports.scripts"
      (Aggs.terms
        (FieldSpec.fieldF ("ports.scripts.http-headers." ++ strDropN field 8))
        none))
  else if strStarts field "httphdr:" then
    Aggs.terms
      (FieldSpec.script (ScriptSrc.httphdrName (strLower (strDropN field 8))))
      (some topnbr)
  else
    Aggs.terms (FieldSpec.fieldF field) (some topnbr)

/-- The `size` entry of the (innermost) `terms` aggregation of a body. -/
def aggTermsSize : Aggs → Option Nat
  | Aggs.terms _ size => size
  | Aggs.nestedAgg _ inner => aggTermsSize inner

/-! ## `distinct`: composite-aggregation pagination -/

/-- The fixed composite-aggregation page size (`PAGESIZE = 250`). -/
def PAGESIZE : Nat := 250

/-- A composite-aggregation request as built by `distinct`:
`{"size": PAGESIZE, "sources": [{field: {"terms": ...}}]}`, plus the
optional `after` continuation token set between pages. -/
structure CompReq where
  size : Nat
  field : String
  after : Option JVal

/-- A composite-aggregation response: the bucket key values for the
requested source (`value['key'][field]`), and the optional `after_key`
continuation token. -/
structure CompResp where
  buckets : List JVal
  after_key : Option JVal

/-- The first request issued by `distinct`: page size `PAGESIZE`, no
`after` token. -/
def initCompReq (field : String) : CompReq :=
  { size := PAGESIZE, field := field, after := none }

/-- The `while True` loop of `distinct`, with the engine as an explicit
request-to-response function and an explicit fuel bound: issue the
request, yield every bucket key of the page, stop if the response has
no `after_key`, otherwise set `query["after"]` and continue. -/
def distinctRun (engine : CompReq → CompResp) :
    Nat → CompReq → List JVal
  | 0, _ => []
  | fuel + 1, q =>
      let r := engine q
      r.buckets ++
        (match r.after_key with
         | none => []
         | some a => distinctRun engine fuel { q with after := some a })

/-- The same loop, recording the request/response pair of each page. -/
def distinctTrace (engine : CompReq → CompResp) :
    Nat → CompReq → List (CompReq × CompResp)
  | 0, _ => []
  | fuel + 1, q =>
      let r := engine q
      (q, r) ::
        (match r.after_key with
         | none => []
         | some a => distinctTrace engine fuel { q with after := some a })

/-- The request issued for the `k`-th page: the first request, then
each later request obtained by echoing the previous response's
`after_key` as `after` (frozen once a response carries no token). -/
def reqChain (engine : CompReq → CompResp) (q0 : CompReq) : Nat → CompReq
  | 0 => q0
  | k + 1 =>
      let q := reqChain engine q0 k
      match (engine q).after_key with
      | none => q
      | some a => { q with after := some a }

/-! ## Record Store: `store_host` and `get` document transformations -/

/-- Membership of the string `"coordinates"` in an embedded list
(Python `in` on a list). -/
def listHasCoordStr : List JVal → Bool
  | [] => false
  | JVal.str s :: rest =>
      if s = "coordinates" then true else listHasCoordStr rest
  | _ :: rest => listHasCoordStr rest

/-- Substring test (Python `in` on a string), structurally recursive. -/
def containsSub (hay needle : List Char) : Bool :=
  match hay with
  | [] => needle = []
  | _ :: rest => if charsLead needle hay then true else containsSub rest needle

/-- Python `x[::-1]`: reverses lists and strings, `TypeError` on
anything else. -/
def reverseSlice : JVal → Except String JVal
  | JVal.arr l => Except.ok (JVal.arr l.reverse)
  | JVal.str s => Except.ok (JVal.str (String.mk s.data.reverse))
  | _ => Except.error "TypeError: object is not subscriptable"

/-- The coordinate-flip step shared by `store_host` and `get`:
`if 'coordinates' in host.get('infos', {}):
     host['infos']['coordinates'] = host['infos']['coordinates'][::-1]`.
The non-dict `infos` cases reproduce Python's behaviour of `in` and
item assignment on the corresponding values. -/
def coordFlip (h : List (String × JVal)) :
    Except String (List (String × JVal)) :=
  match objGet h "infos" with
  | none => Except.ok h
  | some (JVal.obj infos) =>
      match objGet infos "coordinates" with
      | none => Except.ok h
      | some c =>
          (reverseSlice c).map (fun c' =>
            objSet h "infos" (JVal.obj (objSet infos "coordinates" c')))
  | some (JVal.str s) =>
      if containsSub s.data "coordinates".data then
        Except.error "TypeError: string indices must be integers"
      else Except.ok h
  | some (JVal.arr l) =>
      if listHasCoordStr l then
        Except.error "TypeError: list indices must be integers"
      else Except.ok h
  | some _ =>
      Except.error "TypeError: argument of type is not iterable"

/-- `ElasticDBActive.store_host(host)`: flip the coordinate axis order
when present; the resulting document is the body passed to
`db_client.index` (a new record — the engine assigns the id). -/
def storeBody (h : List (String × JVal)) :
    Except String (List (String × JVal)) :=
  coordFlip h

/-- The datetime-decoding loop of `get`:
`for field in self.datetime_fields: if field in host: host[field] = utils.all2datetime(host[field])`.
`utils.all2datetime` is outside `src/` and is passed as the abstract
`decode` parameter. -/
def dtDecodeFold (dtFields : List String) (decode : JVal → JVal)
    (host : List (String × JVal)) : List (String × JVal) :=
  dtFields.foldl
    (fun h f =>
      match objGet h f with
      | some v => objSet h f (decode v)
      | none => h) host

/-- The per-record transformation of `ElasticDBActive.get`: merge the
engine-assigned `_id` into the source document
(`dict(rec['_source'], _id=rec['_id'])`), flip the coordinate axis
order back, then decode the datetime fields. -/
def getBody (dtFields : List String) (decode : JVal → JVal) (id : String)
    (source : List (String × JVal)) :
    Except String (List (String × JVal)) :=
  (coordFlip (objSet source "_id" (JVal.str id))).map
    (dtDecodeFold dtFields decode)

/-- A two-page engine used to exercise the `distinct` pagination loop:
the first request (no `after`) returns one bucket and a continuation
token, the second returns one bucket and no token. -/
def demoEngine : CompReq → CompResp := fun q =>
  match q.after with
  | none => { buckets := [JVal.num 15169], after_key := some (JVal.num 7) }
  | some _ => { buckets := [JVal.num 8075], after_key := none }

/-! ## Helper lemmas -/

theorem objGet_objSet_self {α : Type} (m : List (String × α)) (k : String)
    (v : α) : objGet (objSet m k v) k = some v := by
  induction m with
  | nil => simp [objGet, objSet]
  | cons hd tl ih =>
      obtain ⟨k', v'⟩ := hd
      by_cases h : k' = k
      · simp [objGet, objSet, h]
      · simp [objGet, objSet, h, ih]

theorem objGet_objSet_ne {α : Type} (m : List (String × α)) (k k' : String)
    (v : α) (hne : k' ≠ k) : objGet (objSet m k v) k' = objGet m k' := by
  have hkk : ¬ k = k' := fun h => hne h.symm
  induction m with
  | nil => simp [objGet, objSet, hkk]
  | cons hd tl ih =>
      obtain ⟨k0, v0⟩ := hd
      by_cases h : k0 = k
      · subst h
        simp [objGet, objSet, hkk]
      · simp [objGet, objSet, h, ih]

theorem dtDecodeFold_objGet_notMem (dtFields : List String)
    (decode : JVal → JVal) (host : List (String × JVal)) (k : String)
    (hk : k ∉ dtFields) :
    objGet (dtDecodeFold dtFields decode host) k = objGet host k := by
  induction dtFields generalizing host with
  | nil => rfl
  | cons f rest ih =>
      have hkf : k ≠ f := fun h => hk (h ▸ List.mem_cons_self f rest)
      have hkrest : k ∉ rest := fun h => hk (List.mem_cons_of_mem f h)
      simp only [dtDecodeFold, List.foldl_cons]
      rcases hget : objGet host f with _ | v
      · simpa [hget, dtDecodeFold] using ih _ hkrest
      · simp only [hget]
        have := ih (objSet host f (decode v)) hkrest
        simp only [dtDecodeFold] at this
        rw [this, objGet_objSet_ne _ _ _ _ hkf]

theorem reqChain_size (engine : CompReq → CompResp) (q0 : CompReq) (k : Nat) :
    (reqChain engine q0 k).size = q0.size := by
  induction k with
  | zero => rfl
  | succ k ih =>
      simp only [reqChain]
      cases (engine (reqChain engine q0 k)).after_key <;> simp [ih]

theorem reqChain_field (engine : CompReq → CompResp) (q0 : CompReq)
    (k : Nat) : (reqChain engine q0 k).field = q0.field := by
  induction k with
  | zero => rfl
  | succ k ih =>
      simp only [reqChain]
      cases (engine (reqChain engine q0 k)).after_key <;> simp [ih]

theorem reqChain_shift (engine : CompReq → CompResp) (q0 : CompReq)
    (a : JVal) (ha : (engine q0).after_key = some a) (k : Nat) :
    reqChain engine q0 (k + 1) =
      reqChain engine { q0 with after := some a } k := by
  induction k with
  | zero => simp [reqChain, ha]
  | succ k ih =>
      have h1 : reqChain engine q0 (k + 1 + 1) =
          match (engine (reqChain engine q0 (k + 1))).after_key with
          | none => reqChain engine q0 (k + 1)
          | some a' => { reqChain engine q0 (k + 1) with after := some a' } :=
        rfl
      rw [h1, ih]
      rfl

theorem distinctTrace_stops (engine : CompReq → CompResp) :
    ∀ (n : Nat) (q0 : CompReq),
      (∀ k, k < n → (engine (reqChain engine q0 k)).after_key ≠ none) →
      (engine (reqChain engine q0 n)).after_key = none →
      ∀ j, distinctTrace engine (n + 1 + j) q0 =
        (List.range (n + 1)).map
          (fun k => (reqChain engine q0 k, engine (reqChain engine q0 k))) := by
  intro n
  induction n with
  | zero =>
      intro q0 hsome hnone j
      have h0 : (engine q0).after_key = none := hnone
      rw [Nat.add_right_comm]
      simp [distinctTrace, h0, reqChain, List.range_succ]
  | succ n ih =>
      intro q0 hsome hnone j
      obtain ⟨a, ha⟩ : ∃ a, (engine q0).after_key = some a := by
        have hne := hsome 0 (Nat.succ_pos n)
        cases h : (engine q0).after_key with
        | none => exact absurd h hne
        | some a => exact ⟨a, rfl⟩
      have hshift : ∀ k, reqChain engine q0 (k + 1) =
          reqChain engine { q0 with after := some a } k :=
        reqChain_shift engine q0 a ha
      have hsome' : ∀ k, k < n →
          (engine (reqChain engine { q0 with after := some a } k)).after_key ≠
            none := by
        intro k hk
        rw [← hshift k]
        exact hsome (k + 1) (Nat.succ_lt_succ hk)
      have hnone' :
          (engine (reqChain engine { q0 with after := some a } n)).after_key =
            none := by
        rw [← hshift n]
        exact hnone
      rw [Nat.add_right_comm]
      simp only [distinctTrace, ha]
      rw [ih _ hsome' hnone' j]
      rw [List.range_succ_eq_map (n + 1), List.map_cons, List.map_map]
      have htail :
          (List.range (n + 1)).map
            (fun k => (reqChain engine { q0 with after := some a } k,
              engine (reqChain engine { q0 with after := some a } k))) =
          (List.range (n + 1)).map
            ((fun k => (reqChain engine q0 k, engine (reqChain engine q0 k)))
              ∘ Nat.succ) := by
        apply List.map_congr_left
        intro k hk
        simp only [Function.comp_apply]
        rw [← hshift k]
      rw [htail]
      rfl

theorem distinctRun_eq_trace (engine : CompReq → CompResp) :
    ∀ (fuel : Nat) (q : CompReq),
      distinctRun engine fuel q =
        ((distinctTrace engine fuel q).map (fun p => p.2.buckets)).flatten := by
  intro fuel
  induction fuel with
  | zero => intro q; rfl
  | succ fuel ih =>
      intro q
      simp only [distinctRun, distinctTrace]
      cases (engine q).after_key with
      | none => simp
      | some a => simp [ih]

/-! ## Claim theorems -/

/-- C2 (counterexample): the mapping tree produced by
`_create_mappings` is not independent of the order of the nested paths:
`["ports.scripts", "ports"]` and `["ports", "ports.scripts"]` produce
different trees. -/
theorem create_mappings_order_counterexample :
    createMappings ["ports.scripts", "ports"] [] ≠
      createMappings ["ports", "ports.scripts"] [] := by
  intro h
  have h2 : (createMappings ["ports.scripts", "ports"] []).length = 2 := by
    decide
  rw [h] at h2
  have h1 : (createMappings ["ports", "ports.scripts"] []).length = 1 := by
    decide
  rw [h1] at h2
  exact absurd h2 (by decide)

/-- C2 (amended): the Schema Builder's output depends on the processing
order of the nested paths.  With `["ports", "ports.scripts"]` the
descendant is nested inside the ancestor's `properties` sub-map; with
`["ports.scripts", "ports"]` the descendant becomes a separate flat
dotted top-level key, because the nested-check at lookup time only sees
nodes that already exist. -/
theorem create_mappings_order_dependent :
    createMappings ["ports", "ports.scripts"] [] =
      [("ports",
        MNode.mk "nested" (some [("scripts", MNode.mk "nested" none)]))]
    ∧ createMappings ["ports.scripts", "ports"] [] =
      [("ports.scripts", MNode.mk "nested" none),
       ("ports", MNode.mk "nested" none)] :=
  ⟨rfl, rfl⟩

/-- C3 (code bug): `searchhost` accepts a `neg` flag but ignores it —
with `neg=True` it returns the positive `match` predicate itself, not
its logical negation, contradicting its own docstring ("if `neg` ==
True, filters out"). -/
theorem searchhost_neg_ignored :
    searchhost (JVal.str "1.2.3.4") true =
        Query.matchQ "addr" (JVal.str "1.2.3.4")
    ∧ searchhost (JVal.str "1.2.3.4") true ≠
        Query.notQ (searchhost (JVal.str "1.2.3.4") false) :=
  ⟨rfl, fun h => Query.noConfusion h⟩

/-- C5 (counterexample): in the `httphdr.<subfield>` branch of
`topvalues` the inner `terms` aggregation of the nested wrapper is
built from `field` alone and carries no `size` entry at all, so it does
not carry `size = topnbr`. -/
theorem topvalues_nested_size_counterexample :
    aggTermsSize (topvaluesAggs "httphdr.name" 10) = none
    ∧ aggTermsSize (topvaluesAggs "httphdr.name" 10) ≠ some 10 := by
  constructor
  · decide
  · decide

/-- C5 (amended): in every branch of the `topvalues` dispatch except
the nested-aggregation branch used for `httphdr.<subfield>`, the terms
aggregation carries `size = topnbr`; in the `httphdr.<subfield>` branch
the body is the double nested wrapper (`ports` then `ports.scripts`)
whose terms aggregation carries no `size` entry. -/
theorem topvalues_terms_size (field : String) (topnbr : Nat) :
    aggTermsSize (topvaluesAggs field topnbr) = some topnbr
    ∨ (strStarts field "httphdr." = true
        ∧ topvaluesAggs field topnbr =
            Aggs.nestedAgg "ports" (Aggs.nestedAgg "ports.scripts"
              (Aggs.terms
                (FieldSpec.fieldF
                  ("ports.scripts.http-headers." ++ strDropN field 8))
                none))) := by
  unfold topvaluesAggs
  split_ifs with h1 h2 h3 h4 h5 h6 h7 <;>
    simp_all [aggTermsSize]

/-- C7: calling `searchscript` with a `values` argument but no `name`
argument fails with a descriptive `TypeError` and returns no predicate,
whatever the other arguments are. -/
theorem searchscript_values_without_name (aliases : List (String × String))
    (output : Option ReOrStr) (values : ScriptValues) (neg : Bool) :
    searchscript aliases none output (some values) neg =
      Except.error
        ".searchscript() needs a `name` arg when using a `values` arg" :=
  rfl

/-- C4: whenever `searchscript` returns a predicate (i.e. except for
the `values`-without-`name` usage error), the predicate is wrapped in
two nested-query levels — path `ports`, then path `ports.scripts` —
with all given sub-predicates conjoined (folded with `&` from `Q()`)
inside the inner nesting; with no sub-predicate arguments at all it is
the double-nested existence predicate on `ports.scripts`. -/
theorem searchscript_double_nested (aliases : List (String × String))
    (name output : Option ReOrStr) (values : Option ScriptValues)
    (h : values = none ∨ name ≠ none) :
    (searchscript aliases name output values false =
      Except.ok (Query.nested "ports" (Query.nested "ports.scripts"
        (match scriptReq aliases name output values with
         | [] => Query.existsQ "ports.scripts"
         | req => (req.map subreqQuery).foldl hand Query.empty))))
    ∧ searchscript aliases none none none false =
        Except.ok (Query.nested "ports"
          (Query.nested "ports.scripts" (Query.existsQ "ports.scripts"))) := by
  constructor
  · rcases values with _ | v
    · simp only [searchscript, scriptReq, List.append_nil, scriptFinish]
      cases scriptNameOutputReq name output <;> simp
    · rcases name with _ | nm
      · rcases h with h | h
        · exact absurd h (by simp)
        · exact absurd rfl h
      · simp only [searchscript, scriptReq, scriptFinish]
        cases hreq : scriptNameOutputReq (some nm) output ++
            scriptValuesReq (scriptSubfield aliases nm) v <;> simp
  · rfl

/-- Witness for C4 at a concrete call:
`searchscript(name="ssl-cert", values="Paris")`. -/
theorem searchscript_double_nested_witness :
    ((some (ScriptValues.str "Paris") : Option ScriptValues) = none
      ∨ (some (ReOrStr.s "ssl-cert") : Option ReOrStr) ≠ none)
    ∧ ((searchscript [("ssl-cert", "cert")] (some (ReOrStr.s "ssl-cert"))
          none (some (ScriptValues.str "Paris")) false =
        Except.ok (Query.nested "ports" (Query.nested "ports.scripts"
          (match scriptReq [("ssl-cert", "cert")]
              (some (ReOrStr.s "ssl-cert")) none
              (some (ScriptValues.str "Paris")) with
           | [] => Query.existsQ "ports.scripts"
           | req => (req.map subreqQuery).foldl hand Query.empty))))
      ∧ searchscript [("ssl-cert", "cert")] none none none false =
          Except.ok (Query.nested "ports"
            (Query.nested "ports.scripts" (Query.existsQ "ports.scripts")))) :=
  ⟨Or.inr (fun h => Option.noConfusion h),
   searchscript_double_nested [("ssl-cert", "cert")]
     (some (ReOrStr.s "ssl-cert")) none (some (ScriptValues.str "Paris"))
     (Or.inr (fun h => Option.noConfusion h))⟩

/-- C6: the `distinct` pagination loop issues composite-aggregation
requests of fixed page size `PAGESIZE = 250` over the requested field,
echoes each response's `after_key` as the `after` parameter of the next
request, yields every bucket key of every page in order, and stops
requesting exactly after the first response that carries no
`after_key`: given that the `n`-th response along the request chain is
the first one without `after_key`, the loop performs exactly the
`n + 1` chained requests whatever additional fuel it is given, so the
yielded sequence is finite. -/
theorem distinct_pagination (engine : CompReq → CompResp) (field : String)
    (n : Nat)
    (hsome : ∀ k, k < n →
      (engine (reqChain engine (initCompReq field) k)).after_key ≠ none)
    (hnone :
      (engine (reqChain engine (initCompReq field) n)).after_key = none) :
    (∀ k, (reqChain engine (initCompReq field) k).size = 250
        ∧ (reqChain engine (initCompReq field) k).field = field)
    ∧ (∀ k, k < n →
        (reqChain engine (initCompReq field) (k + 1)).after =
          (engine (reqChain engine (initCompReq field) k)).after_key)
    ∧ (∀ j, distinctTrace engine (n + 1 + j) (initCompReq field) =
        (List.range (n + 1)).map
          (fun k => (reqChain engine (initCompReq field) k,
            engine (reqChain engine (initCompReq field) k))))
    ∧ (∀ j, distinctRun engine (n + 1 + j) (initCompReq field) =
        ((List.range (n + 1)).map
          (fun k =>
            (engine (reqChain engine (initCompReq field) k)).buckets)).flatten) := by
  refine ⟨?_, ?_, ?_, ?_⟩
  · intro k
    exact ⟨reqChain_size engine (initCompReq field) k,
      reqChain_field engine (initCompReq field) k⟩
  · intro k hk
    have hne := hsome k hk
    cases h : (engine (reqChain engine (initCompReq field) k)).after_key with
    | none => exact absurd h hne
    | some a =>
        have h1 : reqChain engine (initCompReq field) (k + 1) =
            match (engine (reqChain engine (initCompReq field) k)).after_key with
            | none => reqChain engine (initCompReq field) k
            | some a' =>
                { reqChain engine (initCompReq field) k with after := some a' } :=
          rfl
        rw [h1, h]
  · exact distinctTrace_stops engine n (initCompReq field) hsome hnone
  · intro j
    rw [distinctRun_eq_trace engine (n + 1 + j) (initCompReq field),
      distinctTrace_stops engine n (initCompReq field) hsome hnone j,
      List.map_map]
    rfl

/-- Witness for C6: a concrete two-page engine (`demoEngine`) whose
second response is the first without `after_key` (`n = 1`); the loop
stops after two requests and yields both pages' buckets. -/
theorem distinct_pagination_witness :
    (∀ k, k < 1 →
      (demoEngine
        (reqChain demoEngine (initCompReq "infos.as_num") k)).after_key ≠ none)
    ∧ (demoEngine
        (reqChain demoEngine (initCompReq "infos.as_num") 1)).after_key = none
    ∧ ((∀ k, (reqChain demoEngine (initCompReq "infos.as_num") k).size = 250
          ∧ (reqChain demoEngine (initCompReq "infos.as_num") k).field =
              "infos.as_num")
      ∧ (∀ k, k < 1 →
          (reqChain demoEngine (initCompReq "infos.as_num") (k + 1)).after =
            (demoEngine
              (reqChain demoEngine (initCompReq "infos.as_num") k)).after_key)
      ∧ (∀ j, distinctTrace demoEngine (1 + 1 + j) (initCompReq "infos.as_num") =
          (List.range (1 + 1)).map
            (fun k => (reqChain demoEngine (initCompReq "infos.as_num") k,
              demoEngine (reqChain demoEngine (initCompReq "infos.as_num") k))))
      ∧ (∀ j, distinctRun demoEngine (1 + 1 + j) (initCompReq "infos.as_num") =
          ((List.range (1 + 1)).map
            (fun k =>
              (demoEngine
                (reqChain demoEngine
                  (initCompReq "infos.as_num") k)).buckets)).flatten)) := by
  have hsome : ∀ k, k < 1 →
      (demoEngine
        (reqChain demoEngine (initCompReq "infos.as_num") k)).after_key ≠
        none := by
    intro k hk
    have hk0 : k = 0 := by omega
    subst hk0
    intro h
    exact Option.noConfusion h
  have hnone :
      (demoEngine
        (reqChain demoEngine (initCompReq "infos.as_num") 1)).after_key =
        none := rfl
  exact ⟨hsome, hnone,
    distinct_pagination demoEngine "infos.as_num" 1 hsome hnone⟩

/-- C8: `searchasnum` coerces every argument value with `int()` before
building the predicate: a single (non-iterable-or-string) value yields
an exact `match` on the coerced integer; a non-string iterable — a list
of values, or a dict, whose iteration yields its keys — yields a
`terms` (match-any-of) query over the coerced integers; and a
non-numeric value makes the call fail with the coercion error instead
of returning a predicate. -/
theorem searchasnum_coercion :
    (∀ (v : JVal) (n : Int), (∀ l, v ≠ JVal.arr l) →
      (∀ o, v ≠ JVal.obj o) → pyInt v = Except.ok n →
      searchasnum v false =
        Except.ok (Query.matchQ "infos.as_num" (JVal.num n)))
    ∧ (∀ (vs : List JVal) (ns : List Int), vs.mapM pyInt = Except.ok ns →
      searchasnum (JVal.arr vs) false =
        Except.ok (Query.terms "infos.as_num" (ns.map JVal.num)))
    ∧ (∀ (o : List (String × JVal)) (ns : List Int),
      (o.map (fun p => JVal.str p.1)).mapM pyInt = Except.ok ns →
      searchasnum (JVal.obj o) false =
        Except.ok (Query.terms "infos.as_num" (ns.map JVal.num)))
    ∧ (∀ (v : JVal) (e : String) (neg : Bool), (∀ l, v ≠ JVal.arr l) →
      (∀ o, v ≠ JVal.obj o) → pyInt v = Except.error e →
      searchasnum v neg = Except.error e)
    ∧ (∀ (vs : List JVal) (e : String) (neg : Bool),
      vs.mapM pyInt = Except.error e →
      searchasnum (JVal.arr vs) neg = Except.error e)
    ∧ (∀ (o : List (String × JVal)) (e : String) (neg : Bool),
      (o.map (fun p => JVal.str p.1)).mapM pyInt = Except.error e →
      searchasnum (JVal.obj o) neg = Except.error e) := by
  refine ⟨?_, ?_, ?_, ?_, ?_, ?_⟩
  · intro v n hv1 hv2 hp
    cases v with
    | arr l => exact absurd rfl (hv1 l)
    | obj o => exact absurd rfl (hv2 o)
    | str s => simp [searchasnum, hp, Except.map]
    | num m => simp [searchasnum, hp, Except.map]
  · intro vs ns hmap
    simp only [searchasnum]
    rw [hmap]
    rfl
  · intro o ns hmap
    simp only [searchasnum]
    rw [hmap]
    rfl
  · intro v e neg hv1 hv2 hp
    cases v with
    | arr l => exact absurd rfl (hv1 l)
    | obj o => exact absurd rfl (hv2 o)
    | str s => simp [searchasnum, hp, Except.map]
    | num m => simp [searchasnum, hp, Except.map]
  · intro vs e neg hmap
    simp only [searchasnum]
    rw [hmap]
    rfl
  · intro o e neg hmap
    simp only [searchasnum]
    rw [hmap]
    rfl

/-- Witness for C8 at concrete inputs: the string `" 1_5169 "`
(surrounding whitespace and an underscore separator, both accepted by
`int()`) is coerced to an exact match; the list `[15169, "8075"]` and
the dict `{"15169": ..., "8075": ...}` (iterated over its keys) to
match-any-of queries over the coerced integers; and `"4x"` fails with
the coercion error. -/
theorem searchasnum_coercion_witness :
    ((∀ l, JVal.str " 1_5169 " ≠ JVal.arr l)
      ∧ (∀ o, JVal.str " 1_5169 " ≠ JVal.obj o)
      ∧ pyInt (JVal.str " 1_5169 ") = Except.ok 15169
      ∧ searchasnum (JVal.str " 1_5169 ") false =
          Except.ok (Query.matchQ "infos.as_num" (JVal.num 15169)))
    ∧ ([JVal.num 15169, JVal.str "8075"].mapM pyInt =
          Except.ok [15169, 8075]
      ∧ searchasnum (JVal.arr [JVal.num 15169, JVal.str "8075"]) false =
          Except.ok (Query.terms "infos.as_num"
            [JVal.num 15169, JVal.num 8075]))
    ∧ (([("15169", JVal.num 1), ("8075", JVal.num 2)].map
          (fun p => JVal.str p.1)).mapM pyInt = Except.ok [15169, 8075]
      ∧ searchasnum
          (JVal.obj [("15169", JVal.num 1), ("8075", JVal.num 2)]) false =
          Except.ok (Query.terms "infos.as_num"
            [JVal.num 15169, JVal.num 8075]))
    ∧ (pyInt (JVal.str "4x") =
          Except.error "ValueError: invalid literal for int() with base 10"
      ∧ searchasnum (JVal.str "4x") true =
          Except.error
            "ValueError: invalid literal for int() with base 10") :=
  ⟨⟨fun _ h => JVal.noConfusion h, fun _ h => JVal.noConfusion h, rfl,
    searchasnum_coercion.1 (JVal.str " 1_5169 ") 15169
      (fun _ h => JVal.noConfusion h) (fun _ h => JVal.noConfusion h) rfl⟩,
   ⟨rfl,
    searchasnum_coercion.2.1 [JVal.num 15169, JVal.str "8075"]
      [15169, 8075] rfl⟩,
   ⟨rfl,
    searchasnum_coercion.2.2.1 [("15169", JVal.num 1), ("8075", JVal.num 2)]
      [15169, 8075] rfl⟩,
   ⟨rfl,
    searchasnum_coercion.2.2.2.1 (JVal.str "4x")
      "ValueError: invalid literal for int() with base 10" true
      (fun _ h => JVal.noConfusion h) (fun _ h => JVal.noConfusion h) rfl⟩⟩

/-- C1: for every host whose `infos.coordinates` field is a two-element
`[lat, lon]` array, `store_host` followed by retrieving the stored body
through `get`'s per-record transformation yields the same `[lat, lon]`
pair — the axis order is reversed exactly once on write and exactly
once on read.  (`dtFields`/`decode` stand for `self.datetime_fields`
and `utils.all2datetime`; `infos` itself is not a datetime field.) -/
theorem coordinates_roundtrip (dtFields : List String)
    (decode : JVal → JVal) (id : String)
    (h infos : List (String × JVal)) (lat lon : JVal)
    (hdt : "infos" ∉ dtFields)
    (hinf : objGet h "infos" = some (JVal.obj infos))
    (hco : objGet infos "coordinates" = some (JVal.arr [lat, lon])) :
    ∃ h' g infos',
      storeBody h = Except.ok h'
      ∧ getBody dtFields decode id h' = Except.ok g
      ∧ objGet g "infos" = some (JVal.obj infos')
      ∧ objGet infos' "coordinates" = some (JVal.arr [lat, lon]) := by
  have hid : ("infos" : String) ≠ "_id" := by decide
  set infos₁ := objSet infos "coordinates" (JVal.arr [lon, lat]) with hinfos₁
  set h' := objSet h "infos" (JVal.obj infos₁) with hh'
  have hstore : storeBody h = Except.ok h' := by
    simp [storeBody, coordFlip, hinf, hco, reverseSlice, Except.map, hh',
      hinfos₁]
  set host := objSet h' "_id" (JVal.str id) with hhost
  have hg1 : objGet host "infos" = some (JVal.obj infos₁) := by
    rw [hhost, objGet_objSet_ne _ _ _ _ hid, hh', objGet_objSet_self]
  have hg2 : objGet infos₁ "coordinates" = some (JVal.arr [lon, lat]) := by
    rw [hinfos₁, objGet_objSet_self]
  set infos₂ := objSet infos₁ "coordinates" (JVal.arr [lat, lon]) with hinfos₂
  set g₀ := objSet host "infos" (JVal.obj infos₂) with hg₀
  have hflip : coordFlip host = Except.ok g₀ := by
    simp [coordFlip, hg1, hg2, reverseSlice, Except.map, hg₀, hinfos₂]
  refine ⟨h', dtDecodeFold dtFields decode g₀, infos₂, hstore, ?_, ?_, ?_⟩
  · rw [getBody, ← hhost, hflip]
    rfl
  · rw [dtDecodeFold_objGet_notMem _ _ _ _ hdt, hg₀, objGet_objSet_self]
  · rw [hinfos₂, objGet_objSet_self]

/-- Witness for C1 at a concrete host with coordinates
`[48.85, 2.35]` (scaled to integers). -/
theorem coordinates_roundtrip_witness :
    (("infos" : String) ∉ (["starttime", "endtime"] : List String))
    ∧ objGet [("addr", JVal.str "1.2.3.4"),
        ("infos", JVal.obj [("country_code", JVal.str "FR"),
          ("coordinates", JVal.arr [JVal.num 4885, JVal.num 235])])]
        "infos" =
      some (JVal.obj [("country_code", JVal.str "FR"),
        ("coordinates", JVal.arr [JVal.num 4885, JVal.num 235])])
    ∧ objGet [("country_code", JVal.str "FR"),
        ("coordinates", JVal.arr [JVal.num 4885, JVal.num 235])]
        "coordinates" = some (JVal.arr [JVal.num 4885, JVal.num 235])
    ∧ (∃ h' g infos',
        storeBody [("addr", JVal.str "1.2.3.4"),
          ("infos", JVal.obj [("country_code", JVal.str "FR"),
            ("coordinates", JVal.arr [JVal.num 4885, JVal.num 235])])] =
          Except.ok h'
        ∧ getBody ["starttime", "endtime"] (fun v => v) "recid" h' =
            Except.ok g
        ∧ objGet g "infos" = some (JVal.obj infos')
        ∧ objGet infos' "coordinates" =
            some (JVal.arr [JVal.num 4885, JVal.num 235])) :=
  ⟨by decide, rfl, rfl,
   coordinates_roundtrip ["starttime", "endtime"] (fun v => v) "recid"
     [("addr", JVal.str "1.2.3.4"),
      ("infos", JVal.obj [("country_code", JVal.str "FR"),
        ("coordinates", JVal.arr [JVal.num 4885, JVal.num 235])])]
     [("country_code", JVal.str "FR"),
      ("coordinates", JVal.arr [JVal.num 4885, JVal.num 235])]
     (JVal.num 4885) (JVal.num 235) (by decide) rfl rfl⟩

/-- C10: `store_host` modifies only the `infos.coordinates` field of
the host document before indexing it — reversing its axis order when it
is an array — and leaves every other top-level field and every other
`infos` sub-field untouched; a host without an `infos.coordinates`
field is indexed entirely unchanged. -/
theorem store_host_frame (h h' : List (String × JVal))
    (hok : storeBody h = Except.ok h') :
    (∀ k, k ≠ "infos" → objGet h' k = objGet h k)
    ∧ (∀ infos, objGet h "infos" = some (JVal.obj infos) →
        ∃ infos', objGet h' "infos" = some (JVal.obj infos')
          ∧ (∀ k, k ≠ "coordinates" → objGet infos' k = objGet infos k)
          ∧ (∀ cs, objGet infos "coordinates" = some (JVal.arr cs) →
              objGet infos' "coordinates" = some (JVal.arr cs.reverse)))
    ∧ ((objGet h "infos" = none
        ∨ ∃ infos, objGet h "infos" = some (JVal.obj infos)
            ∧ objGet infos "coordinates" = none) → h' = h) := by
  unfold storeBody coordFlip at hok
  rcases hg : objGet h "infos" with _ | v
  · rw [hg] at hok
    have heq : h = h' := Except.ok.inj hok
    subst heq
    exact ⟨fun k _ => rfl, fun infos hinf => Option.noConfusion hinf,
      fun _ => rfl⟩
  · rw [hg] at hok
    cases v with
    | obj infos =>
        have hok2 : (match objGet infos "coordinates" with
            | none => Except.ok h
            | some c =>
                Except.map (fun c' =>
                  objSet h "infos" (JVal.obj (objSet infos "coordinates" c')))
                  (reverseSlice c)) = Except.ok h' := hok
        rcases hc : objGet infos "coordinates" with _ | c
        · rw [hc] at hok2
          have heq : h = h' := Except.ok.inj hok2
          subst heq
          refine ⟨fun k _ => rfl, ?_, fun _ => rfl⟩
          intro infos0 hinf
          obtain rfl : infos = infos0 := by
            have h1 := Option.some.inj hinf
            injection h1
          refine ⟨infos, hg, fun _ _ => rfl, ?_⟩
          intro cs hcs
          rw [hc] at hcs
          exact Option.noConfusion hcs
        · rw [hc] at hok2
          cases c with
          | arr l =>
              have heq : objSet h "infos"
                  (JVal.obj (objSet infos "coordinates"
                    (JVal.arr l.reverse))) = h' := Except.ok.inj hok2
              subst heq
              refine ⟨fun k hk => objGet_objSet_ne _ _ _ _ hk, ?_, ?_⟩
              · intro infos0 hinf
                obtain rfl : infos = infos0 := by
                  have h1 := Option.some.inj hinf
                  injection h1
                refine ⟨objSet infos "coordinates" (JVal.arr l.reverse),
                  objGet_objSet_self _ _ _,
                  fun k hk => objGet_objSet_ne _ _ _ _ hk, ?_⟩
                intro cs hcs
                rw [hc] at hcs
                obtain rfl : l = cs := by
                  have h1 := Option.some.inj hcs
                  injection h1
                exact objGet_objSet_self _ _ _
              · rintro (hnone | ⟨infos0, hinf, hcs⟩)
                · exact Option.noConfusion hnone
                · obtain rfl : infos = infos0 := by
                    have h1 := Option.some.inj hinf
                    injection h1
                  rw [hc] at hcs
                  exact Option.noConfusion hcs
          | str s =>
              have heq : objSet h "infos"
                  (JVal.obj (objSet infos "coordinates"
                    (JVal.str (String.mk s.data.reverse)))) = h' :=
                Except.ok.inj hok2
              subst heq
              refine ⟨fun k hk => objGet_objSet_ne _ _ _ _ hk, ?_, ?_⟩
              · intro infos0 hinf
                obtain rfl : infos = infos0 := by
                  have h1 := Option.some.inj hinf
                  injection h1
                refine ⟨objSet infos "coordinates"
                    (JVal.str (String.mk s.data.reverse)),
                  objGet_objSet_self _ _ _,
                  fun k hk => objGet_objSet_ne _ _ _ _ hk, ?_⟩
                intro cs hcs
                rw [hc] at hcs
                have h1 := Option.some.inj hcs
                exact JVal.noConfusion h1
              · rintro (hnone | ⟨infos0, hinf, hcs⟩)
                · exact Option.noConfusion hnone
                · obtain rfl : infos = infos0 := by
                    have h1 := Option.some.inj hinf
                    injection h1
                  rw [hc] at hcs
                  exact Option.noConfusion hcs
          | num n => exact Except.noConfusion hok2
          | obj o => exact Except.noConfusion hok2
    | str s =>
        have hok2 : (if containsSub s.data "coordinates".data then
              (Except.error "TypeError: string indices must be integers" :
                Except String (List (String × JVal)))
            else Except.ok h) = Except.ok h' := hok
        cases hcs : containsSub s.data "coordinates".data with
        | true =>
            rw [hcs] at hok2
            simp only [if_true] at hok2
            exact Except.noConfusion hok2
        | false =>
            rw [hcs] at hok2
            simp only [Bool.false_eq_true, if_false] at hok2
            have heq : h = h' := Except.ok.inj hok2
            subst heq
            refine ⟨fun k _ => rfl, ?_, fun _ => rfl⟩
            intro infos hinf
            have h1 := Option.some.inj hinf
            exact JVal.noConfusion h1
    | arr l =>
        have hok2 : (if listHasCoordStr l then
              (Except.error "TypeError: list indices must be integers" :
                Except String (List (String × JVal)))
            else Except.ok h) = Except.ok h' := hok
        cases hcs : listHasCoordStr l with
        | true =>
            rw [hcs] at hok2
            simp only [if_true] at hok2
            exact Except.noConfusion hok2
        | false =>
            rw [hcs] at hok2
            simp only [Bool.false_eq_true, if_false] at hok2
            have heq : h = h' := Except.ok.inj hok2
            subst heq
            refine ⟨fun k _ => rfl, ?_, fun _ => rfl⟩
            intro infos hinf
            have h1 := Option.some.inj hinf
            exact JVal.noConfusion h1
    | num n => exact Except.noConfusion hok

/-- Witness for C10: a concrete host whose coordinates are flipped and
whose other fields survive unchanged. -/
theorem store_host_frame_witness :
    storeBody [("addr", JVal.str "1.2.3.4"),
      ("infos", JVal.obj [("country_code", JVal.str "FR"),
        ("coordinates", JVal.arr [JVal.num 4885, JVal.num 235])])] =
      Except.ok [("addr", JVal.str "1.2.3.4"),
        ("infos", JVal.obj [("country_code", JVal.str "FR"),
          ("coordinates", JVal.arr [JVal.num 235, JVal.num 4885])])]
    ∧ ((∀ k, k ≠ "infos" →
          objGet [("addr", JVal.str "1.2.3.4"),
            ("infos", JVal.obj [("country_code", JVal.str "FR"),
              ("coordinates", JVal.arr [JVal.num 235, JVal.num 4885])])] k =
          objGet [("addr", JVal.str "1.2.3.4"),
            ("infos", JVal.obj [("country_code", JVal.str "FR"),
              ("coordinates", JVal.arr [JVal.num 4885, JVal.num 235])])] k)
      ∧ (∀ infos,
          objGet [("addr", JVal.str "1.2.3.4"),
            ("infos", JVal.obj [("country_code", JVal.str "FR"),
              ("coordinates", JVal.arr [JVal.num 4885, JVal.num 235])])]
            "infos" = some (JVal.obj infos) →
          ∃ infos',
            objGet [("addr", JVal.str "1.2.3.4"),
              ("infos", JVal.obj [("country_code", JVal.str "FR"),
                ("coordinates", JVal.arr [JVal.num 235, JVal.num 4885])])]
              "infos" = some (JVal.obj infos')
            ∧ (∀ k, k ≠ "coordinates" → objGet infos' k = objGet infos k)
            ∧ (∀ cs, objGet infos "coordinates" = some (JVal.arr cs) →
                objGet infos' "coordinates" = some (JVal.arr cs.reverse)))
      ∧ ((objGet [("addr", JVal.str "1.2.3.4"),
            ("infos", JVal.obj [("country_code", JVal.str "FR"),
              ("coordinates", JVal.arr [JVal.num 4885, JVal.num 235])])]
            "infos" = none
          ∨ ∃ infos,
              objGet [("addr", JVal.str "1.2.3.4"),
                ("infos", JVal.obj [("country_code", JVal.str "FR"),
                  ("coordinates", JVal.arr [JVal.num 4885, JVal.num 235])])]
                "infos" = some (JVal.obj infos)
              ∧ objGet infos "coordinates" = none) →
          [("addr", JVal.str "1.2.3.4"),
            ("infos", JVal.obj [("country_code", JVal.str "FR"),
              ("coordinates", JVal.arr [JVal.num 235, JVal.num 4885])])] =
          [("addr", JVal.str "1.2.3.4"),
            ("infos", JVal.obj [("country_code", JVal.str "FR"),
              ("coordinates", JVal.arr [JVal.num 4885, JVal.num 235])])])) :=
  ⟨rfl,
   store_host_frame
     [("addr", JVal.str "1.2.3.4"),
      ("infos", JVal.obj [("country_code", JVal.str "FR"),
        ("coordinates", JVal.arr [JVal.num 4885, JVal.num 235])])]
     [("addr", JVal.str "1.2.3.4"),
      ("infos", JVal.obj [("country_code", JVal.str "FR"),
        ("coordinates", JVal.arr [JVal.num 235, JVal.num 4885])])]
     rfl⟩

/-- C9: `searchcountry` exact-matches `infos.country_code` against the
caller's argument — a single country code yields a `match` query on
that code, and a list argument yields a `terms` (match-any-of) query
over exactly the listed codes. -/
theorem searchcountry_exact_match :
    (∀ c : String,
      searchcountry (JVal.str c) false =
        Query.matchQ "infos.country_code" (JVal.str c))
    ∧ (∀ cs : List JVal,
      searchcountry (JVal.arr cs) false =
        Query.terms "infos.country_code" cs) :=
  ⟨fun _ => rfl, fun _ => rfl⟩

end Elastic
